import Mathlib

/-
Verification of the curricula-grade task-graph execution engine.

This file gives a shallow embedding of the core data model and operations:
the outcome model (Message / Score / Error / Result) with its dump/load
serialization, the task graph (Task, Dependencies, TaskCollection) with its
stable topological sort, the registrar's duplicate detection, the scope
filter, and the execution engine's per-task state machine.

Python reference points:
  - curricula_grade/grader/task/__init__.py   (outcome model, Task.run)
  - curricula_grade/task/collection.py        (TaskCollection.push)
  - curricula_grade/task/registrar.py         (Registrar._register)
  - curricula_grade/grader/task/filter.py     (TaskFilter)
  - curricula_grade/grader/__init__.py        (Grader.run / the task loop)

The modules task/dependency.py, grader/task/dependency.py and the report
module are imported by the code above but are not part of the sources at
hand; the functions they provide (topological_sort, flatten_dependencies,
fulfills_dependencies, the report container) are modelled from the written
specification, and each such definition is marked below.
-/

namespace CG

/-- A decimal number as held by Python's `decimal.Decimal`: an exact scaled
integer.  Serialization of a `Decimal` goes through `str`, and `Decimal(str(d))`
restores both the value and the exponent of `d`, so the string form is modelled
by the decimal itself (the string rendering is injective and parsing is its
inverse). -/
structure Dec where
  mantissa : Int
  exponent : Int
  deriving Repr, DecidableEq

/-- Message.kind constants (grader/task/__init__.py, class Kind). -/
def Message.WARNING : String := "warning"

def Message.INFO : String := "info"

def Message.DEBUG : String := "debug"

/-- A message associated with a result (grader/task/__init__.py). -/
structure Message where
  kind : String
  content : String
  deriving Repr, DecidableEq

/-- The dictionary produced by Message.dump. -/
structure MessageData where
  kind : String
  content : String
  deriving Repr, DecidableEq

def Message.dump (m : Message) : MessageData :=
  { kind := m.kind, content := m.content }

def Message.load (d : MessageData) : Message :=
  { kind := d.kind, content := d.content }

/-- Result score: a rational pair of decimals (grader/task/__init__.py). -/
structure Score where
  numerator : Dec
  denominator : Dec
  deriving Repr, DecidableEq

/-- The dictionary produced by Score.dump: `str` of each decimal. -/
structure ScoreData where
  numerator : Dec
  denominator : Dec
  deriving Repr, DecidableEq

def Score.dump (s : Score) : ScoreData :=
  { numerator := s.numerator, denominator := s.denominator }

def Score.load (d : ScoreData) : Score :=
  { numerator := d.numerator, denominator := d.denominator }

/-- An error raised during a task (grader/task/__init__.py). -/
structure Error where
  description : String
  suggestion : Option String := none
  location : Option String := none
  traceback : Option String := none
  expected : Option String := none
  actual : Option String := none
  deriving Repr, DecidableEq

/-- The dictionary produced by Error.dump.  A thin dump carries only the
description and suggestion keys; Error.load fills absent keys with the
dataclass defaults (None), which is modelled by storing `none`. -/
structure ErrorData where
  description : String
  suggestion : Option String
  location : Option String
  traceback : Option String
  expected : Option String
  actual : Option String
  deriving Repr, DecidableEq

def Error.dump (e : Error) (thin : Bool) : ErrorData :=
  if thin then
    { description := e.description, suggestion := e.suggestion,
      location := none, traceback := none, expected := none, actual := none }
  else
    { description := e.description, suggestion := e.suggestion,
      location := e.location, traceback := e.traceback,
      expected := e.expected, actual := e.actual }

def Error.load (d : ErrorData) : Error :=
  { description := d.description, suggestion := d.suggestion,
    location := d.location, traceback := d.traceback,
    expected := d.expected, actual := d.actual }

/-- Free-form details mapping attached to tasks and results. -/
abbrev Details := List (String × String)

/-- Task dependencies based on passing or completion
(grader/task/__init__.py, class Dependencies).  The Python sets are modelled
as lists; only membership is ever consulted. -/
structure Dependencies where
  passing : List String
  complete : List String
  deriving Repr, DecidableEq

/-- Dependencies.all: the union of the two sets. -/
def Dependencies.allNames (d : Dependencies) : List String :=
  d.passing ++ d.complete

/-- The static part of a Task (grader/task/__init__.py, class Task): every
field except the runnable body.  `result_type` holds the identity of the
declared result class (Python compares classes with `is`; distinct classes
get distinct strings here).  Python Task uses identity equality (eq=False);
structural equality is only ever used below on a task compared with itself. -/
structure TaskMeta where
  name : String
  description : Option String
  dependencies : Dependencies
  details : Details
  graded : Bool
  weight : Dec
  source : String
  tags : List String
  result_type : String
  deriving Repr, DecidableEq

/-- The result of a test (grader/task/__init__.py, class Result).
`rtype` records the concrete class of the instance (its `kind`), and `task`
is the back-reference attached by the engine — unset (`none`) until then. -/
structure Result where
  complete : Bool
  passing : Bool
  score : Option Score := none
  error : Option Error := none
  messages : List Message := []
  details : Details := []
  rtype : String
  task : Option TaskMeta := none
  deriving Repr, DecidableEq

/-- The task sub-dictionary written by Result.dump. -/
structure TaskData where
  name : String
  description : Option String
  deriving Repr, DecidableEq

/-- The dictionary produced by Result.dump.  `details` is absent (`none`)
exactly in thin mode. -/
structure ResultData where
  complete : Bool
  passing : Bool
  score : Option ScoreData
  error : Option ErrorData
  messages : List MessageData
  task : Option TaskData
  details : Option Details
  deriving Repr, DecidableEq

/-- Result.dump (grader/task/__init__.py lines 115-129).  The Python code
reads `self.task.name`; the dump is only ever taken of a result whose task is
attached, and an unattached task is rendered as an absent entry here. -/
def Result.dump (r : Result) (thin : Bool) : ResultData :=
  { complete := r.complete,
    passing := r.passing,
    score := r.score.map Score.dump,
    error := r.error.map (Error.dump · thin),
    messages := r.messages.map Message.dump,
    task := r.task.map fun t => { name := t.name, description := t.description },
    details := if thin then none else some r.details }

/-- Result.load (grader/task/__init__.py lines 131-141): pop the task entry,
decode score/error/messages, rebuild through the constructor (absent details
fall back to the constructor default, the empty dict), and key the given task
back in.  `cls` is the class the classmethod is invoked on. -/
def Result.load (cls : String) (d : ResultData) (task : TaskMeta) : Result :=
  { complete := d.complete,
    passing := d.passing,
    score := d.score.map Score.load,
    error := d.error.map Error.load,
    messages := d.messages.map Message.load,
    details := d.details.getD [],
    rtype := cls,
    task := some task }

/-- Result.incomplete (grader/task/__init__.py lines 143-147):
cls(complete=False, passing=False). -/
def Result.incompleteR (cls : String) : Result :=
  { complete := false, passing := false, rtype := cls }

/-- Result.default (grader/task/__init__.py lines 149-153):
cls(complete=True, passing=True). -/
def Result.defaultR (cls : String) : Result :=
  { complete := true, passing := true, rtype := cls }

/-- Engine-side attachment of the owning task: `result.task = task`. -/
def Result.attach (r : Result) (t : TaskMeta) : Result :=
  { r with task := some t }

/-- Example task used to instantiate theorems with hypotheses. -/
def exampleTask : TaskMeta :=
  { name := "build", description := some "Compile the program.",
    dependencies := { passing := [], complete := [] },
    details := [], graded := true, weight := { mantissa := 1, exponent := 0 },
    source := "examples/simple", tags := ["stage1"], result_type := "build" }

/-- Example result with every optional field populated. -/
def exampleResultFull : Result :=
  { complete := true, passing := false,
    score := some { numerator := { mantissa := 3, exponent := 0 },
                    denominator := { mantissa := 4, exponent := 0 } },
    error := some { description := "Test failed!", suggestion := some "Try this...",
                    location := some "here", traceback := some "trace",
                    expected := some "0", actual := some "1" },
    messages := [{ kind := Message.DEBUG, content := "test" }],
    details := [("key", "value")],
    rtype := "build",
    task := some exampleTask }

/-- Example result with every optional field left at its default. -/
def exampleResultEmpty : Result :=
  { complete := true, passing := true, rtype := "build", task := some exampleTask }

theorem score_load_dump (s : Score) : Score.load (Score.dump s) = s := rfl

theorem message_load_dump (m : Message) : Message.load (Message.dump m) = m := rfl

theorem error_load_dump (e : Error) : Error.load (Error.dump e false) = e := by
  simp [Error.dump, Error.load]

/-- C1: for every Result with its task attached — in particular one with every
optional field (score, error, messages, details) populated and one with all
optional fields at their defaults — Result.load applied to Result.dump and the
result's own task reproduces the result on every equality-governed field, the
task reference included. -/
theorem c1_result_dump_load_roundtrip (r : Result) (t : TaskMeta)
    (h : r.task = some t) :
    Result.load r.rtype (r.dump false) t = r := by
  cases r with
  | mk complete passing score error messages details rtype task =>
    simp only [Option.some.injEq] at h
    simp only [Result.dump, Result.load, Result.mk.injEq, if_neg, Bool.false_eq_true,
      not_false_iff, Option.getD_some, h, and_true, true_and]
    refine ⟨?_, ?_, ?_⟩
    · cases score <;> simp [Score.dump, Score.load]
    · cases error <;> simp [error_load_dump]
    · simp [List.map_map, Function.comp_def, message_load_dump]

/-- C1 witness: the round trip evaluated at a fully populated result and at a
result with all optional fields defaulted. -/
theorem c1_witness :
    Result.load exampleResultFull.rtype (exampleResultFull.dump false) exampleTask
        = exampleResultFull
    ∧ Result.load exampleResultEmpty.rtype (exampleResultEmpty.dump false) exampleTask
        = exampleResultEmpty :=
  ⟨c1_result_dump_load_roundtrip exampleResultFull exampleTask rfl,
   c1_result_dump_load_roundtrip exampleResultEmpty exampleTask rfl⟩

/-! ## Task graph and topological sort

`TaskCollection.push` (task/collection.py) appends the task and re-sorts the
whole list with `topological_sort` from task/dependency.py.  That module is
not among the sources at hand; `topological_sort` is modelled from the
specification: a stable topological sort, Kahn's algorithm keyed by original
insertion index.  A dependency name that is not the name of any task in the
collection imposes no ordering constraint (it only matters at run time).
Cyclic dependencies make the algorithm stick, which is surfaced as `none`. -/

/-- Names of the tasks in a collection. -/
def names (tasks : List TaskMeta) : List String :=
  tasks.map (·.name)

/-- A task is ready once every dependency name that belongs to the collection
(`allNames`) has already been emitted (`doneNames`). -/
def readyT (allNames doneNames : List String) (t : TaskMeta) : Bool :=
  t.dependencies.allNames.all fun n => !(allNames.contains n) || doneNames.contains n

/-- Remove the first element satisfying `p`, keeping the order of the rest. -/
def extractFirst (p : α → Bool) : List α → Option (α × List α)
  | [] => none
  | x :: xs =>
    if p x then some (x, xs)
    else
      match extractFirst p xs with
      | none => none
      | some (y, ys) => some (y, x :: ys)

/-- Modelled from the spec: the loop of `topological_sort`
(task/dependency.py, not among the sources): repeatedly emit the
lowest-insertion-index task whose in-collection dependencies are all emitted;
`none` when no task is ready (a dependency cycle). -/
def kahnAux (allNames : List String) : Nat → List TaskMeta → List TaskMeta → Option (List TaskMeta)
  | _, [], acc => some acc.reverse
  | 0, _ :: _, _ => none
  | fuel + 1, x :: xs, acc =>
    match extractFirst (readyT allNames (acc.map (·.name))) (x :: xs) with
    | none => none
    | some (t, rest) => kahnAux allNames fuel rest (t :: acc)

/-- Modelled from the spec: `topological_sort` (task/dependency.py, not among
the sources) — a stable topological sort of the full task list, Kahn's
algorithm keyed by original insertion index. -/
def topological_sort (tasks : List TaskMeta) : Option (List TaskMeta) :=
  kahnAux (names tasks) tasks.length tasks []

/-- TaskCollection.push (task/collection.py): append the task, then re-sort
the whole list. -/
def TaskCollection.push (c : List TaskMeta) (t : TaskMeta) : Option (List TaskMeta) :=
  topological_sort (c ++ [t])

/-- Checks that a sequence is topologically ordered: walking it front to
back, every task is ready with respect to the names emitted so far plus the
initial `done` prefix. -/
def chkFrom (allNames : List String) : List String → List TaskMeta → Bool
  | _, [] => true
  | done, t :: ts => readyT allNames done t && chkFrom allNames (t.name :: done) ts

theorem extractFirst_spec {p : α → Bool} :
    ∀ {l : List α} {x : α} {xs : List α}, extractFirst p l = some (x, xs) →
      p x = true ∧ l.Perm (x :: xs) := by
  intro l
  induction l with
  | nil => intro x xs h; simp [extractFirst] at h
  | cons a as ih =>
    intro x xs h
    by_cases hpa : p a = true
    · simp only [extractFirst, hpa, if_true, Option.some.injEq, Prod.mk.injEq] at h
      obtain ⟨h1, h2⟩ := h
      subst h1; subst h2
      exact ⟨hpa, List.Perm.refl _⟩
    · simp only [extractFirst, hpa, if_false, Bool.false_eq_true] at h
      match hrec : extractFirst p as with
      | none => rw [hrec] at h; simp at h
      | some (y, ys) =>
        rw [hrec] at h
        simp only [Option.some.injEq, Prod.mk.injEq] at h
        obtain ⟨h1, h2⟩ := h
        subst h1; subst h2
        obtain ⟨hpy, hperm⟩ := ih hrec
        exact ⟨hpy, (hperm.cons a).trans (List.Perm.swap y a ys)⟩

theorem kahnAux_sound (allNames : List String) :
    ∀ (fuel : Nat) (pending acc out : List TaskMeta),
      kahnAux allNames fuel pending acc = some out →
      ∃ suffix, out = acc.reverse ++ suffix ∧ pending.Perm suffix ∧
        chkFrom allNames (acc.map (·.name)) suffix = true := by
  intro fuel
  induction fuel with
  | zero =>
    intro pending acc out h
    cases pending with
    | nil =>
      refine ⟨[], ?_, List.Perm.refl _, rfl⟩
      simp [kahnAux] at h
      simp [h]
    | cons x xs => simp [kahnAux] at h
  | succ f ih =>
    intro pending acc out h
    cases pending with
    | nil =>
      refine ⟨[], ?_, List.Perm.refl _, rfl⟩
      simp [kahnAux] at h
      simp [h]
    | cons x xs =>
      simp only [kahnAux] at h
      match hext : extractFirst (readyT allNames (acc.map (·.name))) (x :: xs) with
      | none => rw [hext] at h; simp at h
      | some (t, rest) =>
        rw [hext] at h
        obtain ⟨hready, hperm⟩ := extractFirst_spec hext
        obtain ⟨suffix, hout, hperm2, hchk⟩ := ih rest (t :: acc) out h
        refine ⟨t :: suffix, ?_, ?_, ?_⟩
        · rw [hout]; simp
        · exact hperm.trans (hperm2.cons t)
        · simp only [chkFrom, hready, Bool.true_and]
          simpa using hchk

theorem kahnAux_of_sorted (allNames : List String) :
    ∀ (pending acc : List TaskMeta),
      chkFrom allNames (acc.map (·.name)) pending = true →
      ∀ fuel, pending.length ≤ fuel →
        kahnAux allNames fuel pending acc = some (acc.reverse ++ pending) := by
  intro pending
  induction pending with
  | nil =>
    intro acc _ fuel _
    cases fuel <;> simp [kahnAux]
  | cons t ts ih =>
    intro acc hchk fuel hfuel
    simp only [chkFrom, Bool.and_eq_true] at hchk
    obtain ⟨hready, hrest⟩ := hchk
    cases fuel with
    | zero => simp at hfuel
    | succ f =>
      have hx : extractFirst (readyT allNames (acc.map (·.name))) (t :: ts)
          = some (t, ts) := by
        simp [extractFirst, hready]
      have hts : chkFrom allNames ((t :: acc).map (·.name)) ts = true := by
        simpa using hrest
      simp only [kahnAux, hx]
      rw [ih (t :: acc) hts f (by simpa using hfuel)]
      simp

/-- Soundness of the sort: on success the output is a permutation of the
input and is topologically ordered. -/
theorem topological_sort_sound (tasks out : List TaskMeta)
    (h : topological_sort tasks = some out) :
    tasks.Perm out ∧ chkFrom (names tasks) [] out = true := by
  obtain ⟨suffix, hout, hperm, hchk⟩ :=
    kahnAux_sound (names tasks) tasks.length tasks [] out h
  simp only [List.reverse_nil, List.nil_append] at hout
  subst hout
  exact ⟨hperm, by simpa using hchk⟩

/-- Stability in the absence of forward references: an input that is already
topologically ordered is returned unchanged. -/
theorem topological_sort_of_sorted (tasks : List TaskMeta)
    (h : chkFrom (names tasks) [] tasks = true) :
    topological_sort tasks = some tasks := by
  have := kahnAux_of_sorted (names tasks) tasks [] (by simpa using h)
    tasks.length (le_refl _)
  simpa using this

/-- Reading off topological validity from `chkFrom`: every dependency name of
a task that belongs to the collection was emitted before the task. -/
theorem chkFrom_split (allNames : List String) :
    ∀ (l₁ : List TaskMeta) (t : TaskMeta) (l₂ : List TaskMeta) (done : List String),
      chkFrom allNames done (l₁ ++ t :: l₂) = true →
      ∀ n ∈ t.dependencies.allNames, allNames.contains n = true →
        n ∈ done ∨ n ∈ names l₁ := by
  intro l₁
  induction l₁ with
  | nil =>
    intro t l₂ done h n hn hcn
    simp only [List.nil_append, chkFrom, Bool.and_eq_true] at h
    obtain ⟨hr, _⟩ := h
    left
    simp only [readyT, List.all_eq_true] at hr
    have h2 := hr n hn
    rw [hcn] at h2
    simp only [Bool.not_true, Bool.false_or] at h2
    simpa using h2
  | cons u us ih =>
    intro t l₂ done h n hn hcn
    simp only [List.cons_append, chkFrom, Bool.and_eq_true] at h
    obtain ⟨_, hrest⟩ := h
    rcases ih t l₂ (u.name :: done) hrest n hn hcn with hmem | hmem
    · rcases List.mem_cons.mp hmem with h1 | h1
      · right
        rw [h1]
        simp [names]
      · left
        exact h1
    · right
      simp only [names, List.map_cons, List.mem_cons]
      right
      simpa [names] using hmem

/-! ## Dependency closure

The filter pulls in transitive dependencies through `flatten_dependencies`
(grader/task/dependency.py, not among the sources); it is modelled from the
specification as the closure over the dependency graph starting from a name,
following both dependency kinds.  The closure is computed by saturation and
proved to coincide with transitive reachability. -/

/-- Dependency names of the task called `n`, both kinds (Python consults the
set `Dependencies.all()`; the list is deduplicated accordingly). -/
def depsOf (tasks : List TaskMeta) (n : String) : List String :=
  match tasks.find? (fun t => t.name = n) with
  | some t => t.dependencies.allNames.dedup
  | none => []

/-- Every name that occurs in the collection, as task or as dependency. -/
def universeNames (tasks : List TaskMeta) : List String :=
  (tasks.flatMap fun t => t.name :: t.dependencies.allNames).dedup

/-- One saturation step: add the dependencies of every member. -/
def closeStep (tasks : List TaskMeta) (s : List String) : List String :=
  s ++ ((s.flatMap (depsOf tasks)).filter (fun n => !s.contains n)).dedup

def closureAux (tasks : List TaskMeta) : Nat → List String → List String
  | 0, s => s
  | k + 1, s => closureAux tasks k (closeStep tasks s)

/-- Modelled from the spec: `flatten_dependencies(name, task_lookup)`
(grader/task/dependency.py, not among the sources) — the names of all
transitive dependencies of `name`, via either dependency kind, computed by
closure over the dependency graph. -/
def flatten_dependencies (name : String) (tasks : List TaskMeta) : List String :=
  closureAux tasks ((universeNames tasks).length + 1) (depsOf tasks name)

/-- The dependency edge: task `a` names `b` among its dependencies. -/
def dependsOn (tasks : List TaskMeta) (a b : String) : Prop :=
  b ∈ depsOf tasks a

theorem subset_closeStep (tasks : List TaskMeta) (s : List String) :
    s ⊆ closeStep tasks s :=
  List.subset_append_left _ _

theorem subset_closureAux (tasks : List TaskMeta) :
    ∀ (k : Nat) (s : List String), s ⊆ closureAux tasks k s := by
  intro k
  induction k with
  | zero => intro s; exact fun _ h => h
  | succ n ih =>
    intro s
    exact (subset_closeStep tasks s).trans (ih (closeStep tasks s))

theorem mem_closeStep (tasks : List TaskMeta) (s : List String) (x : String)
    (h : x ∈ closeStep tasks s) : x ∈ s ∨ ∃ m ∈ s, x ∈ depsOf tasks m := by
  rcases List.mem_append.mp h with h1 | h1
  · exact Or.inl h1
  · right
    have h2 := List.mem_dedup.mp h1
    have h3 := List.mem_filter.mp h2
    exact List.mem_flatMap.mp h3.1

theorem closureAux_sound (tasks : List TaskMeta) (name : String) :
    ∀ (k : Nat) (s : List String),
      (∀ m ∈ s, Relation.TransGen (dependsOn tasks) name m) →
      ∀ x ∈ closureAux tasks k s, Relation.TransGen (dependsOn tasks) name x := by
  intro k
  induction k with
  | zero => intro s hs x hx; exact hs x hx
  | succ n ih =>
    intro s hs x hx
    refine ih (closeStep tasks s) ?_ x hx
    intro m hm
    rcases mem_closeStep tasks s m hm with h1 | ⟨u, hu, hdep⟩
    · exact hs m h1
    · exact (hs u hu).tail hdep

/-- Soundness of the closure: every name it contains is a genuine transitive
dependency. -/
theorem flatten_dependencies_sound (name : String) (tasks : List TaskMeta)
    (x : String) (h : x ∈ flatten_dependencies name tasks) :
    Relation.TransGen (dependsOn tasks) name x := by
  refine closureAux_sound tasks name _ (depsOf tasks name) ?_ x h
  intro m hm
  exact Relation.TransGen.single hm

theorem depsOf_subset_universe (tasks : List TaskMeta) (n : String) :
    depsOf tasks n ⊆ universeNames tasks := by
  intro x hx
  unfold depsOf at hx
  match hfind : tasks.find? (fun t => t.name = n) with
  | none => rw [hfind] at hx; simp at hx
  | some t =>
    rw [hfind] at hx
    have ht : t ∈ tasks := List.mem_of_find?_eq_some hfind
    have hx2 : x ∈ t.dependencies.allNames := List.mem_dedup.mp hx
    unfold universeNames
    exact List.mem_dedup.mpr (List.mem_flatMap.mpr ⟨t, ht, List.mem_cons_of_mem _ hx2⟩)

theorem closeStep_subset_universe (tasks : List TaskMeta) (s : List String)
    (hs : s ⊆ universeNames tasks) : closeStep tasks s ⊆ universeNames tasks := by
  intro x hx
  rcases mem_closeStep tasks s x hx with h1 | ⟨m, _, hdep⟩
  · exact hs h1
  · exact depsOf_subset_universe tasks m hdep

theorem closeStep_nodup (tasks : List TaskMeta) (s : List String)
    (hs : s.Nodup) : (closeStep tasks s).Nodup := by
  unfold closeStep
  refine List.Nodup.append hs (List.nodup_dedup _) ?_
  intro x hxs hxd
  have h2 := List.mem_filter.mp (List.mem_dedup.mp hxd)
  have h3 : x ∉ s := by
    have := h2.2
    simpa using this
  exact h3 hxs

theorem closeStep_fix_closed (tasks : List TaskMeta) (s : List String)
    (h : closeStep tasks s = s) :
    ∀ m ∈ s, depsOf tasks m ⊆ s := by
  intro m hm x hx
  unfold closeStep at h
  have hnil : ((s.flatMap (depsOf tasks)).filter (fun n => !s.contains n)).dedup = [] := by
    have hlen := congrArg List.length h
    simp only [List.length_append] at hlen
    have : ((s.flatMap (depsOf tasks)).filter (fun n => !s.contains n)).dedup.length = 0 := by
      omega
    exact List.eq_nil_of_length_eq_zero this
  have hflat : x ∈ s.flatMap (depsOf tasks) := List.mem_flatMap.mpr ⟨m, hm, hx⟩
  by_contra hxs
  have hmemf : x ∈ (s.flatMap (depsOf tasks)).filter (fun n => !s.contains n) := by
    refine List.mem_filter.mpr ⟨hflat, ?_⟩
    simp [hxs]
  rw [← List.mem_dedup, hnil] at hmemf
  simp at hmemf

theorem closureAux_of_fix (tasks : List TaskMeta) (s : List String)
    (h : closeStep tasks s = s) : ∀ k, closureAux tasks k s = s := by
  intro k
  induction k with
  | zero => rfl
  | succ n ih => simp only [closureAux, h, ih]

theorem length_le_of_nodup_subset (s u : List String) (hn : s.Nodup)
    (hsu : s ⊆ u) : s.length ≤ u.length := by
  have h1 : s.toFinset.card = s.length := List.toFinset_card_of_nodup hn
  have h2 : s.toFinset ⊆ u.toFinset := by
    intro x hx
    rw [List.mem_toFinset] at hx ⊢
    exact hsu hx
  calc s.length = s.toFinset.card := h1.symm
    _ ≤ u.toFinset.card := Finset.card_le_card h2
    _ ≤ u.length := u.toFinset_card_le

theorem closeStep_grows (tasks : List TaskMeta) (s : List String)
    (h : closeStep tasks s ≠ s) :
    s.length + 1 ≤ (closeStep tasks s).length := by
  unfold closeStep at h ⊢
  rcases hd : ((s.flatMap (depsOf tasks)).filter (fun n => !s.contains n)).dedup with _ | ⟨y, ys⟩
  · rw [hd] at h
    simp at h
  · simp only [List.length_append, List.length_cons]
    omega

theorem closure_fix (tasks : List TaskMeta) :
    ∀ (k : Nat) (s : List String), s.Nodup → s ⊆ universeNames tasks →
      (universeNames tasks).length + 1 ≤ k + s.length →
      closeStep tasks (closureAux tasks k s) = closureAux tasks k s := by
  intro k
  induction k with
  | zero =>
    intro s hn hsu hlen
    exfalso
    have := length_le_of_nodup_subset s (universeNames tasks) hn hsu
    omega
  | succ n ih =>
    intro s hn hsu hlen
    by_cases hfix : closeStep tasks s = s
    · have h1 : closureAux tasks (n + 1) s = s := closureAux_of_fix tasks s hfix (n + 1)
      rw [h1, hfix]
    · have h1 : closureAux tasks (n + 1) s = closureAux tasks n (closeStep tasks s) := rfl
      rw [h1]
      refine ih (closeStep tasks s) (closeStep_nodup tasks s hn)
        (closeStep_subset_universe tasks s hsu) ?_
      have := closeStep_grows tasks s hfix
      omega

theorem depsOf_nodup (tasks : List TaskMeta) (n : String) : (depsOf tasks n).Nodup := by
  unfold depsOf
  cases tasks.find? (fun t => t.name = n) with
  | none => simp
  | some t => exact List.nodup_dedup _

/-- Completeness of the closure: every transitive dependency is found. -/
theorem flatten_dependencies_complete (name : String) (tasks : List TaskMeta)
    (x : String) (h : Relation.TransGen (dependsOn tasks) name x) :
    x ∈ flatten_dependencies name tasks := by
  have hfix : closeStep tasks (flatten_dependencies name tasks)
      = flatten_dependencies name tasks :=
    closure_fix tasks ((universeNames tasks).length + 1) (depsOf tasks name)
      (depsOf_nodup tasks name) (depsOf_subset_universe tasks name) (by omega)
  have hclosed := closeStep_fix_closed tasks _ hfix
  induction h with
  | single hdep => exact subset_closureAux tasks _ _ hdep
  | tail _ hdep ih => exact hclosed _ ih hdep

/-- Membership in the computed closure is exactly transitive reachability in
the dependency graph. -/
theorem flatten_dependencies_iff (name : String) (tasks : List TaskMeta)
    (x : String) :
    x ∈ flatten_dependencies name tasks ↔
      Relation.TransGen (dependsOn tasks) name x :=
  ⟨flatten_dependencies_sound name tasks x, flatten_dependencies_complete name tasks x⟩

/-- Task constructor mirroring the defaults of the repository's test mock
(tests/mock.py, `task`). -/
def mkTask (name : String) (passing complete tags : List String) : TaskMeta :=
  { name := name, description := some "A task",
    dependencies := { passing := passing, complete := complete },
    details := [], graded := true, weight := { mantissa := 1, exponent := 0 },
    source := "testing", tags := tags, result_type := "mock" }

/-- A sequence of TaskCollection.push calls starting from the empty
collection. -/
def pushAll (ts : List TaskMeta) : Option (List TaskMeta) :=
  ts.foldlM TaskCollection.push []

/-- Counterexample collection: "a" is declared first with a forward reference
to "c"; "b" and "c" are independent. -/
def taskCA : TaskMeta := mkTask "a" ["c"] [] []

def taskCB : TaskMeta := mkTask "b" [] [] []

def taskCC : TaskMeta := mkTask "c" [] [] []

/-- C2 (amended): for every sequence of TaskCollection.push calls that
introduces no dependency cycle, after each push the collection's iteration
order is a valid topological order — every task named in a task T's passing
or complete dependency sets (and present in the collection) appears earlier
in the sequence than T; and whenever the insertion order itself already
respects the dependencies (no forward references), the iteration order is
exactly the insertion order, so any two tasks with no ordering constraint
between them appear in their original insertion order.  (The unconditional
form of the tie-break rule fails in the presence of forward references; see
the counterexample.) -/
theorem c2_push_topological_stable (c : List TaskMeta) (t : TaskMeta)
    (out : List TaskMeta) (h : TaskCollection.push c t = some out) :
    ((c ++ [t]).Perm out
      ∧ ∀ l₁ u l₂, out = l₁ ++ u :: l₂ →
          ∀ n ∈ u.dependencies.allNames, (names (c ++ [t])).contains n = true →
            n ∈ names l₁)
    ∧ (chkFrom (names (c ++ [t])) [] (c ++ [t]) = true → out = c ++ [t]) := by
  have hs := topological_sort_sound (c ++ [t]) out h
  refine ⟨⟨hs.1, ?_⟩, ?_⟩
  · intro l₁ u l₂ hout n hn hcn
    have hchk : chkFrom (names (c ++ [t])) [] (l₁ ++ u :: l₂) = true := by
      rw [← hout]
      exact hs.2
    rcases chkFrom_split (names (c ++ [t])) l₁ u l₂ [] hchk n hn hcn with h1 | h1
    · simp at h1
    · exact h1
  · intro hsorted
    have h2 : topological_sort (c ++ [t]) = some (c ++ [t]) :=
      topological_sort_of_sorted (c ++ [t]) hsorted
    have h3 : topological_sort (c ++ [t]) = some out := h
    rw [h2] at h3
    exact (Option.some.inj h3).symm

/-- C2 witness: pushing "a" (which depends on "c") onto a collection already
holding "c" succeeds and keeps the insertion order. -/
theorem c2_witness :
    TaskCollection.push [taskCC] taskCA = some [taskCC, taskCA]
    ∧ ([taskCC] ++ [taskCA]).Perm [taskCC, taskCA] :=
  ⟨by decide,
   (c2_push_topological_stable [taskCC] taskCA [taskCC, taskCA] (by decide)).1.1⟩

/-- C2 counterexample: pushing a (passing on c), then b, then c — a cycle-free
sequence — produces the order b, c, a.  The tasks a and b have no ordering
constraint between each other in either direction, yet a was inserted before
b and comes out after it: the unconditional stability statement is false. -/
theorem c2_counterexample :
    (pushAll [taskCA, taskCB, taskCC]).map (fun l => l.map (·.name))
        = some ["b", "c", "a"]
    ∧ ¬ Relation.TransGen (dependsOn [taskCA, taskCB, taskCC]) "a" "b"
    ∧ ¬ Relation.TransGen (dependsOn [taskCA, taskCB, taskCC]) "b" "a" := by
  refine ⟨by decide, ?_, ?_⟩
  · intro h
    have hm := flatten_dependencies_complete "a" [taskCA, taskCB, taskCC] "b" h
    revert hm
    decide
  · intro h
    have hm := flatten_dependencies_complete "b" [taskCA, taskCB, taskCC] "a" h
    revert hm
    decide

/-! ## Registrar

Registrar._register (task/registrar.py): resolve the task name and details,
reject a duplicate name with a GraderException before touching the
collection, then push.  Errors are surfaced as `Except.error` carrying the
exception message; since the Python raise precedes the push, an error leaves
the collection exactly as it was. -/

/-- The loosely-typed details mapping passed at registration, after the typed
fields are picked out (tags being anything but a set raises, which the typed
field rules out here). -/
structure RegDetails where
  name : Option String := none
  description : Option String := none
  graded : Option Bool := none
  weight : Option Dec := none
  passing : List String := []
  complete : List String := []
  tags : Option (List String) := none
  rest : Details := []
  deriving Repr, DecidableEq

/-- Name resolution (task/registrar.py lines 62-66): explicit name detail,
else the body's qualified name, else a GraderException. -/
def resolveTaskName (d : RegDetails) (qualname : Option String) : Except String String :=
  match d.name with
  | some n => Except.ok n
  | none =>
    match qualname with
    | some q => Except.ok q
    | none =>
      Except.error "No viable candidate for task name, please provide during registration"

/-- Registrar._register (task/registrar.py lines 60-95). -/
def Registrar.register (tasks : List TaskMeta) (runQualname docstring : Option String)
    (d : RegDetails) (source : String) (result_type : String) :
    Except String (List TaskMeta) := do
  let name ← resolveTaskName d runQualname
  let description := match d.description with
    | some s => some s
    | none => docstring
  let graded := d.graded.getD true
  let weight := d.weight.getD { mantissa := 1, exponent := 0 }
  let deps : Dependencies := { passing := d.passing, complete := d.complete }
  let tags := d.tags.getD []
  if tasks.any (fun u => u.name = name) then
    Except.error ("Duplicate task name \"" ++ name ++ "\"")
  else
    match TaskCollection.push tasks
        { name := name, description := description, dependencies := deps,
          details := d.rest, graded := graded, weight := weight,
          source := source, tags := tags, result_type := result_type } with
    | some out => Except.ok out
    | none => Except.error "cyclic dependencies in task collection"

/-- Modelled from the spec: the push of grader/task/collection.py (not among
the sources; its test test_push_duplicate requires a GraderException when a
task of the same name is already present): reject a duplicate name before
modifying anything, else append and re-sort. -/
def GraderCollection.push (tasks : List TaskMeta) (t : TaskMeta) :
    Except String (List TaskMeta) :=
  if tasks.any (fun u => u.name = t.name) then
    Except.error ("Duplicate task name \"" ++ t.name ++ "\"")
  else
    match topological_sort (tasks ++ [t]) with
    | some out => Except.ok out
    | none => Except.error "cyclic dependencies in task collection"

/-- C3: registering a task whose resolved name is already present in the
collection fails with a configuration error (a GraderException naming the
duplicate), and likewise pushing a task with an already-present name; the
error is raised before any modification, so the collection is unchanged — in
this embedding, no updated collection is produced at all. -/
theorem c3_duplicate_rejected (tasks : List TaskMeta) (q doc : Option String)
    (d : RegDetails) (source rt : String) (n : String) (t2 : TaskMeta)
    (hname : resolveTaskName d q = Except.ok n)
    (hdup : tasks.any (fun u => u.name = n) = true)
    (hdup2 : tasks.any (fun u => u.name = t2.name) = true) :
    Registrar.register tasks q doc d source rt
        = Except.error ("Duplicate task name \"" ++ n ++ "\"")
    ∧ GraderCollection.push tasks t2
        = Except.error ("Duplicate task name \"" ++ t2.name ++ "\"") := by
  constructor
  · simp [Registrar.register, hname, hdup, Bind.bind, Except.bind]
  · simp [GraderCollection.push, hdup2]

/-- C3 witness: registering a second task named "b", and pushing one, both
fail with the duplicate-name error. -/
theorem c3_witness :
    Registrar.register [taskCB] none none { name := some "b" } "testing" "mock"
        = Except.error ("Duplicate task name \"" ++ "b" ++ "\"")
    ∧ GraderCollection.push [taskCB] taskCB
        = Except.error ("Duplicate task name \"" ++ taskCB.name ++ "\"") :=
  c3_duplicate_rejected [taskCB] none none { name := some "b" } "testing" "mock"
    "b" taskCB rfl (by decide) (by decide)

/-! ## Task.run dependency injection

Task.run (grader/task/__init__.py lines 217-232) walks the runnable's
signature: each parameter is bound to the resource of the same name when
present, else to the parameter's own declared default; a parameter with
neither is a fatal unsatisfied-dependency error (ValueError).  Parameters
are modelled by name plus optional default, resources by an association
list. -/

/-- Resource values handed to task bodies. -/
abbrev Value := String

/-- The shared resource mapping. -/
abbrev Resources := List (String × Value)

/-- dict.get over the resource mapping. -/
def lookupR (res : Resources) (n : String) : Option Value :=
  (res.find? fun q => q.1 == n).map (·.2)

/-- One parameter of a runnable's signature: its name and, when declared,
its default value (no default is Python's `parameter.empty`). -/
structure Param where
  name : String
  default : Option Value
  deriving Repr, DecidableEq

/-- The dependency-injection loop of Task.run: bind each parameter to the
resource of its name, else its default, else raise. -/
def Task.bindings (taskName : String) (res : Resources) :
    List Param → Except String (List (String × Value))
  | [] => Except.ok []
  | p :: ps =>
    match lookupR res p.name with
    | some v => (Task.bindings taskName res ps).map (fun bs => (p.name, v) :: bs)
    | none =>
      match p.default with
      | some dv => (Task.bindings taskName res ps).map (fun bs => (p.name, dv) :: bs)
      | none =>
        Except.error ("caught in " ++ taskName ++ ": could not satisfy dependency " ++ p.name)

/-- The value a parameter is bound to when injection succeeds: the mapping's
value when the name is present, the parameter's own default otherwise (the
fallback constant is never reached on success). -/
def boundValue (res : Resources) (p : Param) : Value :=
  match lookupR res p.name with
  | some v => v
  | none => p.default.getD ""

/-! ## Execution engine

The grading loop (grader/__init__.py, Grader.run; identically grader.py,
_run): for each task in topological order, a hidden task marks the report
partial; an unmet dependency synthesizes result_type.incomplete(); otherwise
the body runs — a raised Result instance is caught and becomes the outcome, a
None return becomes result_type.default(), and a result whose concrete type
differs from the declared result_type raises a GraderException naming the
task and its source.  The report container is not among the sources; it is
modelled from the specification as an ordered list of results keyed by task
name with a partial flag (`truncated` here). -/

/-- What a task body does when invoked: return a Result, return None, raise
a Result instance, or raise some other exception. -/
inductive BodyOutcome where
  | ret (r : Result)
  | retNone
  | raiseResult (r : Result)
  | raiseOther (msg : String)
  deriving Repr, DecidableEq

/-- A runnable task: its static metadata, the parameters of its body's
signature, and what the body does under this run's resources. -/
structure GTask where
  meta : TaskMeta
  params : List Param
  body : BodyOutcome
  deriving Repr, DecidableEq

/-- Outcome of a Python call as seen by the engine's try block: a returned
value, a raised Result instance, or any other exception. -/
inductive PyOutcome (α : Type) where
  | ok (a : α)
  | exnResult (r : Result)
  | exn (msg : String)
  deriving Repr, DecidableEq

/-- Task.run (grader/task/__init__.py lines 217-232): inject dependencies
(an unsatisfied one raises ValueError), call the runnable — a raised Result
propagates — and replace a None return by result_type.default(). -/
def GTask.runT (t : GTask) (res : Resources) : PyOutcome Result :=
  match Task.bindings t.meta.name res t.params with
  | Except.error m => PyOutcome.exn m
  | Except.ok _ =>
    match t.body with
    | BodyOutcome.ret r => PyOutcome.ok r
    | BodyOutcome.retNone => PyOutcome.ok (Result.defaultR t.meta.result_type)
    | BodyOutcome.raiseResult r => PyOutcome.exnResult r
    | BodyOutcome.raiseOther m => PyOutcome.exn m

/-- Modelled from the spec: the report (report module not among the sources)
— an ordered accumulation of results keyed by task name, plus the partial
flag, here `truncated`. -/
structure Report where
  results : List Result := []
  truncated : Bool := false
  deriving Repr, DecidableEq

def Report.add (rep : Report) (r : Result) : Report :=
  { rep with results := rep.results ++ [r] }

def Report.lookup (rep : Report) (n : String) : Option Result :=
  rep.results.find? fun r =>
    match r.task with
    | some t => t.name == n
    | none => false

/-- Dependency `n` ran to completion according to the report. -/
def completedIn (rep : Report) (n : String) : Prop :=
  ∃ r, rep.lookup n = some r ∧ r.complete = true

/-- Dependency `n` completed and passed according to the report. -/
def passedIn (rep : Report) (n : String) : Prop :=
  ∃ r, rep.lookup n = some r ∧ r.complete = true ∧ r.passing = true

/-- Modelled from the spec: fulfills_dependencies(task, report)
(grader/task/dependency.py, not among the sources) — every complete-kind
dependency has a completed result recorded, and every passing-kind dependency
has a completed and passing result; a dependency with no recorded result
never satisfies. -/
def fulfills_dependencies (t : TaskMeta) (rep : Report) : Bool :=
  (t.dependencies.complete.all fun n =>
    match rep.lookup n with
    | some r => r.complete
    | none => false)
  && (t.dependencies.passing.all fun n =>
    match rep.lookup n with
    | some r => r.complete && r.passing
    | none => false)

/-- The GraderException message for a result-type mismatch
(grader/__init__.py line 78). -/
def mismatchMsg (m : TaskMeta) : String :=
  "expected result type " ++ m.result_type ++ " from " ++ m.name ++ " in " ++ m.source

/-- The task loop of Grader.run (grader/__init__.py lines 55-84).  A raised
GraderException or any non-Result exception aborts the run; the abort state
carries the message and the report as it stood. -/
def runTasks (isVisible : TaskMeta → Bool) (res : Resources) :
    List GTask → Report → Except (String × Report) Report
  | [], rep => Except.ok rep
  | t :: ts, rep =>
    if !(isVisible t.meta) then
      runTasks isVisible res ts { rep with truncated := true }
    else if !(fulfills_dependencies t.meta rep) then
      runTasks isVisible res ts (rep.add ((Result.incompleteR t.meta.result_type).attach t.meta))
    else
      match t.runT res with
      | PyOutcome.exn m => Except.error (m, rep)
      | PyOutcome.exnResult r =>
        if r.rtype == t.meta.result_type then
          runTasks isVisible res ts (rep.add (r.attach t.meta))
        else
          Except.error (mismatchMsg t.meta, rep)
      | PyOutcome.ok r =>
        if r.rtype == t.meta.result_type then
          runTasks isVisible res ts (rep.add (r.attach t.meta))
        else
          Except.error (mismatchMsg t.meta, rep)

theorem fulfills_false_of_unmet (t : TaskMeta) (rep : Report)
    (h : (∃ n ∈ t.dependencies.complete, ¬ completedIn rep n)
       ∨ (∃ n ∈ t.dependencies.passing, ¬ passedIn rep n)) :
    fulfills_dependencies t rep = false := by
  cases hb : fulfills_dependencies t rep with
  | false => rfl
  | true =>
    exfalso
    unfold fulfills_dependencies at hb
    rw [Bool.and_eq_true] at hb
    obtain ⟨h1, h2⟩ := hb
    rw [List.all_eq_true] at h1 h2
    rcases h with ⟨n, hn, hnc⟩ | ⟨n, hn, hnp⟩
    · have h3 := h1 n hn
      apply hnc
      unfold completedIn
      cases hl : rep.lookup n with
      | none => rw [hl] at h3; simp at h3
      | some r =>
        rw [hl] at h3
        exact ⟨r, rfl, h3⟩
    · have h3 := h2 n hn
      apply hnp
      unfold passedIn
      cases hl : rep.lookup n with
      | none => rw [hl] at h3; simp at h3
      | some r =>
        rw [hl] at h3
        rw [Bool.and_eq_true] at h3
        exact ⟨r, rfl, h3.1, h3.2⟩

theorem lookup_add_fresh (rep : Report) (r : Result) (t : TaskMeta)
    (hfresh : rep.lookup t.name = none) :
    (rep.add (r.attach t)).lookup t.name = some (r.attach t) := by
  unfold Report.lookup Report.add at *
  rw [List.find?_append, hfresh]
  simp [Result.attach]

/-- C4: for every visible task with at least one declared complete-dependency
that did not run to completion, or passing-dependency that did not both
complete and pass, the engine records result_type.incomplete() — a result
with complete=false and passing=false — and never invokes the task body: the
step is the same whatever the body would have done. -/
theorem c4_unmet_dependency_incomplete (v : TaskMeta → Bool) (res : Resources)
    (t : GTask) (ts : List GTask) (rep : Report)
    (hvis : v t.meta = true)
    (hdep : (∃ n ∈ t.meta.dependencies.complete, ¬ completedIn rep n)
          ∨ (∃ n ∈ t.meta.dependencies.passing, ¬ passedIn rep n)) :
    runTasks v res (t :: ts) rep
        = runTasks v res ts
            (rep.add ((Result.incompleteR t.meta.result_type).attach t.meta))
    ∧ (Result.incompleteR t.meta.result_type).complete = false
    ∧ (Result.incompleteR t.meta.result_type).passing = false
    ∧ ∀ b, runTasks v res ({ t with body := b } :: ts) rep
        = runTasks v res (t :: ts) rep := by
  have hful := fulfills_false_of_unmet t.meta rep hdep
  refine ⟨?_, rfl, rfl, ?_⟩
  · simp [runTasks, hvis, hful]
  · intro b
    simp [runTasks, hvis, hful]

/-- C5: a visible, dependency-satisfied task whose body produces — by return
or by raise — a Result whose concrete type differs from the declared
result_type aborts the whole run with the GraderException naming the task and
its source; the abort state carries the report exactly as it stood, so no
Result is recorded for the task. -/
theorem c5_result_type_mismatch_aborts (v : TaskMeta → Bool) (res : Resources)
    (t : GTask) (ts : List GTask) (rep : Report) (r : Result)
    (bs : List (String × Value))
    (hvis : v t.meta = true)
    (hdep : fulfills_dependencies t.meta rep = true)
    (hbind : Task.bindings t.meta.name res t.params = Except.ok bs)
    (hbody : t.body = BodyOutcome.ret r ∨ t.body = BodyOutcome.raiseResult r)
    (hty : r.rtype ≠ t.meta.result_type) :
    runTasks v res (t :: ts) rep = Except.error (mismatchMsg t.meta, rep)
    ∧ mismatchMsg t.meta = "expected result type " ++ t.meta.result_type
        ++ " from " ++ t.meta.name ++ " in " ++ t.meta.source := by
  refine ⟨?_, rfl⟩
  have hbeq : (r.rtype == t.meta.result_type) = false := by
    simp [hty]
  rcases hbody with hb | hb <;>
    simp [runTasks, hvis, hdep, GTask.runT, hbind, hb, hbeq]

/-- C6: a visible, dependency-satisfied task whose body raises a Result
instance of the declared type has that very instance caught by the engine and
recorded (with the task attached) as the task's outcome. -/
theorem c6_raised_result_is_outcome (v : TaskMeta → Bool) (res : Resources)
    (t : GTask) (ts : List GTask) (rep : Report) (r : Result)
    (bs : List (String × Value))
    (hvis : v t.meta = true)
    (hdep : fulfills_dependencies t.meta rep = true)
    (hbind : Task.bindings t.meta.name res t.params = Except.ok bs)
    (hbody : t.body = BodyOutcome.raiseResult r)
    (hty : r.rtype = t.meta.result_type)
    (hfresh : rep.lookup t.meta.name = none) :
    runTasks v res (t :: ts) rep = runTasks v res ts (rep.add (r.attach t.meta))
    ∧ (rep.add (r.attach t.meta)).lookup t.meta.name = some (r.attach t.meta) := by
  constructor
  · simp [runTasks, hvis, hdep, GTask.runT, hbind, hbody, hty]
  · exact lookup_add_fresh rep r t.meta hfresh

/-- C7: a visible, dependency-satisfied task whose body returns None has
result_type.default() — complete=true and passing=true — recorded as its
result. -/
theorem c7_none_body_records_default (v : TaskMeta → Bool) (res : Resources)
    (t : GTask) (ts : List GTask) (rep : Report)
    (bs : List (String × Value))
    (hvis : v t.meta = true)
    (hdep : fulfills_dependencies t.meta rep = true)
    (hbind : Task.bindings t.meta.name res t.params = Except.ok bs)
    (hbody : t.body = BodyOutcome.retNone) :
    runTasks v res (t :: ts) rep
        = runTasks v res ts
            (rep.add ((Result.defaultR t.meta.result_type).attach t.meta))
    ∧ (Result.defaultR t.meta.result_type).complete = true
    ∧ (Result.defaultR t.meta.result_type).passing = true := by
  refine ⟨?_, rfl, rfl⟩
  simp [runTasks, hvis, hdep, GTask.runT, hbind, hbody, Result.defaultR]

/-- Visibility function making everything visible (no filters). -/
def visAll : TaskMeta → Bool := fun _ => true

/-- Parameterless grading task from metadata and a body outcome. -/
def gtask (m : TaskMeta) (b : BodyOutcome) : GTask :=
  { meta := m, params := [], body := b }

def emptyReport : Report := {}

/-- A task with an unmet passing dependency on "x". -/
def taskDep : TaskMeta := mkTask "t" ["x"] [] []

/-- A dependency-free task named "t". -/
def taskT : TaskMeta := mkTask "t" [] [] []

/-- A result of a different concrete type than taskT's declared "mock". -/
def wrongResult : Result :=
  { complete := true, passing := true, rtype := "other" }

/-- A result of the declared type "mock", as a body would raise it. -/
def raisedResult : Result :=
  { complete := true, passing := false, rtype := "mock" }

/-- C4 witness: a task depending on the never-recorded "x" steps to an
incomplete result regardless of its body. -/
theorem c4_witness :
    runTasks visAll [] [gtask taskDep (BodyOutcome.ret raisedResult)] emptyReport
        = runTasks visAll [] []
            (emptyReport.add ((Result.incompleteR taskDep.result_type).attach taskDep)) :=
  (c4_unmet_dependency_incomplete visAll [] (gtask taskDep (BodyOutcome.ret raisedResult))
    [] emptyReport rfl
    (Or.inr ⟨"x", by decide, by simp [passedIn, Report.lookup, emptyReport]⟩)).1

/-- C5 witness: a body returning a result of the wrong variant aborts the run
with the diagnostic naming the task and source. -/
theorem c5_witness :
    runTasks visAll [] [gtask taskT (BodyOutcome.ret wrongResult)] emptyReport
        = Except.error (mismatchMsg taskT, emptyReport) :=
  (c5_result_type_mismatch_aborts visAll [] (gtask taskT (BodyOutcome.ret wrongResult))
    [] emptyReport wrongResult [] rfl rfl rfl (Or.inl rfl) (by decide)).1

/-- C6 witness: a raised Result of the declared type is recorded as the
outcome, retrievable from the report under the task's name. -/
theorem c6_witness :
    runTasks visAll [] [gtask taskT (BodyOutcome.raiseResult raisedResult)] emptyReport
        = runTasks visAll [] [] (emptyReport.add (raisedResult.attach taskT))
    ∧ (emptyReport.add (raisedResult.attach taskT)).lookup taskT.name
        = some (raisedResult.attach taskT) :=
  c6_raised_result_is_outcome visAll [] (gtask taskT (BodyOutcome.raiseResult raisedResult))
    [] emptyReport raisedResult [] rfl rfl rfl rfl rfl rfl

/-- C7 witness: a body returning None records result_type.default(). -/
theorem c7_witness :
    runTasks visAll [] [gtask taskT BodyOutcome.retNone] emptyReport
        = runTasks visAll [] []
            (emptyReport.add ((Result.defaultR taskT.result_type).attach taskT)) :=
  (c7_none_body_records_default visAll [] (gtask taskT BodyOutcome.retNone)
    [] emptyReport [] rfl rfl rfl rfl).1

/-- C10: the dependency injection of Task.run raises its fatal
unsatisfied-dependency error exactly when some parameter of the body has no
declared default and its name is absent from the resource mapping; on
success every parameter is bound to the mapping's value when its name is
present and silently to its own default otherwise. -/
theorem c10_injection_iff (taskName : String) (res : Resources) :
    ∀ params : List Param,
      ((∃ p ∈ params, p.default = none ∧ lookupR res p.name = none) ↔
        ∃ m, Task.bindings taskName res params = Except.error m)
      ∧ ∀ bs, Task.bindings taskName res params = Except.ok bs →
          bs = params.map fun p => (p.name, boundValue res p) := by
  intro params
  induction params with
  | nil =>
    refine ⟨⟨?_, ?_⟩, ?_⟩
    · rintro ⟨p, hp, _⟩
      simp at hp
    · rintro ⟨m, hm⟩
      simp [Task.bindings] at hm
    · intro bs hbs
      simp [Task.bindings] at hbs
      simp [hbs]
  | cons p ps ih =>
    obtain ⟨ih1, ih2⟩ := ih
    rcases hl : lookupR res p.name with _ | v
    · rcases hd : p.default with _ | dv
      · -- no resource, no default: fatal
        refine ⟨⟨?_, ?_⟩, ?_⟩
        · intro _
          exact ⟨"caught in " ++ taskName ++ ": could not satisfy dependency " ++ p.name,
            by simp [Task.bindings, hl, hd]⟩
        · intro _
          exact ⟨p, List.mem_cons_self p ps, hd, hl⟩
        · intro bs hbs
          simp [Task.bindings, hl, hd] at hbs
      · -- no resource, bound to the default
        rcases hrec : Task.bindings taskName res ps with m | bs2
        · refine ⟨⟨?_, ?_⟩, ?_⟩
          · intro _
            exact ⟨m, by simp [Task.bindings, hl, hd, hrec, Except.map]⟩
          · intro _
            obtain ⟨q, hq, hqd, hql⟩ := ih1.mpr ⟨m, hrec⟩
            exact ⟨q, List.mem_cons_of_mem p hq, hqd, hql⟩
          · intro bs hbs
            simp [Task.bindings, hl, hd, hrec, Except.map] at hbs
        · refine ⟨⟨?_, ?_⟩, ?_⟩
          · rintro ⟨q, hq, hqd, hql⟩
            rcases List.mem_cons.mp hq with h1 | hq2
            · rw [h1] at hqd
              rw [hd] at hqd
              cases hqd
            · obtain ⟨m, hm⟩ := ih1.mp ⟨q, hq2, hqd, hql⟩
              rw [hrec] at hm
              cases hm
          · rintro ⟨m, hm⟩
            simp [Task.bindings, hl, hd, hrec, Except.map] at hm
          · intro bs hbs
            simp [Task.bindings, hl, hd, hrec, Except.map] at hbs
            rw [← hbs, ih2 bs2 hrec]
            simp [boundValue, hl, hd]
    · -- resource present: bound to the mapping's value
      rcases hrec : Task.bindings taskName res ps with m | bs2
      · refine ⟨⟨?_, ?_⟩, ?_⟩
        · intro _
          exact ⟨m, by simp [Task.bindings, hl, hrec, Except.map]⟩
        · intro _
          obtain ⟨q, hq, hqd, hql⟩ := ih1.mpr ⟨m, hrec⟩
          exact ⟨q, List.mem_cons_of_mem p hq, hqd, hql⟩
        · intro bs hbs
          simp [Task.bindings, hl, hrec, Except.map] at hbs
      · refine ⟨⟨?_, ?_⟩, ?_⟩
        · rintro ⟨q, hq, hqd, hql⟩
          rcases List.mem_cons.mp hq with h1 | hq2
          · rw [h1] at hql
            rw [hl] at hql
            cases hql
          · obtain ⟨m, hm⟩ := ih1.mp ⟨q, hq2, hqd, hql⟩
            rw [hrec] at hm
            cases hm
        · rintro ⟨m, hm⟩
          simp [Task.bindings, hl, hrec, Except.map] at hm
        · intro bs hbs
          simp [Task.bindings, hl, hrec, Except.map] at hbs
          rw [← hbs, ih2 bs2 hrec]
          simp [boundValue, hl]

/-- Parameters of a body taking a required "context" and a defaulted
"mode". -/
def paramsW : List Param :=
  [{ name := "context", default := none }, { name := "mode", default := some "fast" }]

/-- A resource mapping providing only "context". -/
def resW : Resources := [("context", "ctx")]

/-- C10 witness: with "context" present and "mode" absent but defaulted,
injection succeeds and binds context to the mapping's value and mode to its
default; dropping the default of an absent name is fatal. -/
theorem c10_witness :
    ([("context", "ctx"), ("mode", "fast")]
        = paramsW.map fun p => (p.name, boundValue resW p))
    ∧ ¬ ∃ p ∈ paramsW, p.default = none ∧ lookupR resW p.name = none :=
  ⟨(c10_injection_iff "t" resW paramsW).2 [("context", "ctx"), ("mode", "fast")] rfl,
   fun h => by
    obtain ⟨m, hm⟩ := ((c10_injection_iff "t" resW paramsW).1).mp h
    rw [show Task.bindings "t" resW paramsW
        = Except.ok [("context", "ctx"), ("mode", "fast")] from rfl] at hm
    cases hm⟩

/-! ## Scope filter

TaskFilter (grader/task/filter.py): namespaced requests are reduced by
filter_problem_specific, the name filter is expanded by pulling in all
transitive dependencies through flatten_dependencies, and a task is visible
when it passes the tag test and the name test independently. -/

/-- The run context options consulted by the filter:
context.options.get("tags") and context.options.get("tasks"). -/
structure Context where
  tags : Option (List String) := none
  tasks : Option (List String) := none

/-- Leading-match test on character lists (Python str.startswith). -/
def leadMatch : List Char → List Char → Bool
  | [], _ => true
  | _ :: _, [] => false
  | a :: as, b :: bs => a == b && leadMatch as bs

/-- Everything after the first colon of a character list. -/
def afterColonList : List Char → List Char
  | [] => []
  | c :: cs => if c == ':' then cs else afterColonList cs

/-- Python item.split(":", maxsplit=1)[1]: everything after the first
colon (only used on items that do contain a colon). -/
def splitTail (item : String) : String :=
  { data := afterColonList item.data }

/-- TaskFilter.filter_problem_specific (grader/task/filter.py lines 52-63):
keep un-namespaced items as they are, strip the namespace from items of this
problem, and discard items namespaced to another problem. -/
def filter_problem_specific (collection : List String) (ps : String) : List String :=
  collection.foldr
    (fun item acc =>
      if item.data.contains ':' then
        if leadMatch (ps ++ ":").data item.data then splitTail item :: acc else acc
      else item :: acc)
    []

/-- TaskFilter's fields (grader/task/filter.py lines 10-16). -/
structure TaskFilter where
  tags : Option (List String)
  task_names : Option (List String)
  related_task_names : Option (List String)

/-- TaskFilter.__init__ (grader/task/filter.py lines 18-35): reduce the two
option sets for this problem and, when a name filter is present, collect the
transitive dependencies of every requested name. -/
def TaskFilter.make (tasks : List TaskMeta) (ctx : Context) (problem_short : String) :
    TaskFilter :=
  let tags := ctx.tags.map fun ft => filter_problem_specific ft problem_short
  match ctx.tasks with
  | none => { tags := tags, task_names := none, related_task_names := none }
  | some ftn =>
    let tn := filter_problem_specific ftn problem_short
    let related := tn.flatMap fun n => flatten_dependencies n tasks
    { tags := tags, task_names := some tn, related_task_names := some related }

/-- TaskFilter.__call__ (grader/task/filter.py lines 37-46): hidden when the
tag filter is present and disjoint from the task's tags, or when the name
filter is present and the name is neither requested nor related. -/
def TaskFilter.call (f : TaskFilter) (t : TaskMeta) : Bool :=
  (match f.tags with
   | some ts => ts.any fun x => t.tags.contains x
   | none => true)
  && (match f.task_names with
      | some ns => ns.contains t.name || (f.related_task_names.getD []).contains t.name
      | none => true)

/-- TaskFilter.has_effect (grader/task/filter.py lines 48-50). -/
def TaskFilter.hasEffect (f : TaskFilter) : Bool :=
  f.tags.isSome || f.task_names.isSome

theorem nameCond_iff (tasks : List TaskMeta) (fn : List String) (ps : String)
    (t : TaskMeta) :
    ((filter_problem_specific fn ps).contains t.name
      || ((filter_problem_specific fn ps).flatMap
            fun n => flatten_dependencies n tasks).contains t.name) = true
    ↔ (t.name ∈ filter_problem_specific fn ps
       ∨ ∃ m ∈ filter_problem_specific fn ps,
           Relation.TransGen (dependsOn tasks) m t.name) := by
  rw [Bool.or_eq_true]
  constructor
  · rintro (h | h)
    · left
      simpa using h
    · right
      have h2 : t.name ∈ (filter_problem_specific fn ps).flatMap
          fun n => flatten_dependencies n tasks := by simpa using h
      obtain ⟨m, hm, hmem⟩ := List.mem_flatMap.mp h2
      exact ⟨m, hm, (flatten_dependencies_iff m tasks t.name).mp hmem⟩
  · rintro (h | ⟨m, hm, hreach⟩)
    · left
      simpa using h
    · right
      have h2 : t.name ∈ (filter_problem_specific fn ps).flatMap
          fun n => flatten_dependencies n tasks :=
        List.mem_flatMap.mpr ⟨m, hm, (flatten_dependencies_iff m tasks t.name).mpr hreach⟩
      simpa using h2

/-- C8: when both a tag filter and a name filter are supplied, a task is
visible if and only if its tag set intersects the requested tags AND its
name is in the requested name set or is a transitive dependency (via either
dependency kind) of some requested name; with a name filter alone,
visibility is exactly the name-or-transitive-dependency membership. -/
theorem c8_filter_conjunctive (tasks : List TaskMeta) (ft fn : List String)
    (ps : String) (t : TaskMeta) :
    ((TaskFilter.make tasks { tags := some ft, tasks := some fn } ps).call t = true ↔
      ((∃ x ∈ filter_problem_specific ft ps, x ∈ t.tags)
        ∧ (t.name ∈ filter_problem_specific fn ps
           ∨ ∃ m ∈ filter_problem_specific fn ps,
               Relation.TransGen (dependsOn tasks) m t.name)))
    ∧ ((TaskFilter.make tasks { tags := none, tasks := some fn } ps).call t = true ↔
      (t.name ∈ filter_problem_specific fn ps
        ∨ ∃ m ∈ filter_problem_specific fn ps,
            Relation.TransGen (dependsOn tasks) m t.name)) := by
  constructor
  · have hcall : (TaskFilter.make tasks { tags := some ft, tasks := some fn } ps).call t
        = (((filter_problem_specific ft ps).any fun x => t.tags.contains x)
          && ((filter_problem_specific fn ps).contains t.name
            || ((filter_problem_specific fn ps).flatMap
                  fun n => flatten_dependencies n tasks).contains t.name)) := rfl
    rw [hcall, Bool.and_eq_true, nameCond_iff]
    constructor
    · rintro ⟨h1, h2⟩
      refine ⟨?_, h2⟩
      obtain ⟨x, hx, hmem⟩ := List.any_eq_true.mp h1
      exact ⟨x, hx, by simpa using hmem⟩
    · rintro ⟨⟨x, hx, hmem⟩, h2⟩
      refine ⟨List.any_eq_true.mpr ⟨x, hx, by simpa using hmem⟩, h2⟩
  · have hcall : (TaskFilter.make tasks { tags := none, tasks := some fn } ps).call t
        = (true
          && ((filter_problem_specific fn ps).contains t.name
            || ((filter_problem_specific fn ps).flatMap
                  fun n => flatten_dependencies n tasks).contains t.name)) := rfl
    rw [hcall, Bool.true_and, nameCond_iff]

/-- The test collection of tests/task.py FilterTests: a (tags t1,t2),
b (passing a), c (passing a), d (passing b), e (tags t2). -/
def taskFA : TaskMeta := mkTask "a" [] [] ["t1", "t2"]

def taskFB : TaskMeta := mkTask "b" ["a"] [] []

def taskFC : TaskMeta := mkTask "c" ["a"] [] []

def taskFD : TaskMeta := mkTask "d" ["b"] [] []

def taskFE : TaskMeta := mkTask "e" [] [] ["t2"]

def exampleCollection : List TaskMeta := [taskFA, taskFB, taskFC, taskFD, taskFE]

/-- Filtering the example collection by the explicit name d selects exactly
a, b, d (the requested name and its transitive dependencies). -/
theorem filter_example_names :
    (exampleCollection.filter fun t =>
        (TaskFilter.make exampleCollection { tasks := some ["d"] } "p").call t).map (·.name)
      = ["a", "b", "d"] := by
  decide

/-- Filtering the example collection by the tag t2 selects exactly a, e. -/
theorem filter_example_tags :
    (exampleCollection.filter fun t =>
        (TaskFilter.make exampleCollection { tags := some ["t2"] } "p").call t).map (·.name)
      = ["a", "e"] := by
  decide

/-- C9: evaluating the source TaskFilter at the namespaced wildcard "p:*"
over the example collection in problem namespace "p".  The code reduces the
request to the literal task name "*": no task is named "*" and the closure of
"*" is empty, so every task in the collection is hidden — the wildcard
selects nothing, where the specification (and the repository's own test
test_filter_names_all) requires it to select every task. -/
theorem c9_wildcard_selects_nothing :
    (TaskFilter.make exampleCollection { tasks := some ["p:*"] } "p").task_names
        = some ["*"]
    ∧ (exampleCollection.all fun t =>
        !((TaskFilter.make exampleCollection { tasks := some ["p:*"] } "p").call t)) = true := by
  constructor
  · decide
  · decide

end CG
